import Mathlib

/-!
Shallow embedding of the hammer.js input layer (`src/input.js`): the
session-based multi-pointer geometry engine.  JavaScript numbers are
modelled as exact rationals for coordinates and timestamps, while the
real-valued geometry (square roots, arctangent) lives in `ℝ`.  An IEEE
division whose divisor is zero produces a non-finite value
(`Infinity` or `NaN`); such results are modelled as `none : Option ℝ`,
and finite values as `some r`.
-/

/-- Event-kind bitmask constants from the source (`EVENT_START` … `EVENT_CANCEL`). -/
def EVENT_START : ℕ := 1

def EVENT_MOVE : ℕ := 2

def EVENT_END : ℕ := 4

def EVENT_CANCEL : ℕ := 8

/-- Direction string constant `DIRECTION_LEFT`. -/
def DIRECTION_LEFT : String := "left"

/-- Direction string constant `DIRECTION_RIGHT`. -/
def DIRECTION_RIGHT : String := "right"

/-- Direction string constant `DIRECTION_UP`. -/
def DIRECTION_UP : String := "up"

/-- Direction string constant `DIRECTION_DOWN`. -/
def DIRECTION_DOWN : String := "down"

/-- Direction string constant `DIRECTION_NONE` (the empty string in the source). -/
def DIRECTION_NONE : String := ""

/-- A point with `x`/`y` pixel coordinates (the `{x, y}` objects of the source). -/
structure Point where
  x : ℚ
  y : ℚ
  deriving DecidableEq

/-- One active contact: client-space coordinates.  Platform metadata carried by
the source's pointer objects is unused by this core and omitted. -/
structure RawPointer where
  clientX : ℚ
  clientY : ℚ
  deriving DecidableEq, Inhabited

/-- The native event wrapper; only its `timeStamp` is read by this core. -/
structure SrcEvent where
  timeStamp : ℚ
  deriving DecidableEq

/-- One observation of the full pointer set, as handed in by an input adapter. -/
structure RawSample where
  pointers : List RawPointer
  changedPointers : List RawPointer
  srcEvent : SrcEvent
  deriving DecidableEq

/-- A session snapshot as built by `simpleCloneInputData`: timestamp, reduced
(rounded) pointer list, and the center of that list. -/
structure Snapshot where
  timeStamp : ℚ
  pointers : List RawPointer
  center : Point
  deriving DecidableEq

/-- Per-gesture session state.  In the source `firstMultiple` is either unset,
a snapshot, or the literal `false`; both falsy states are modelled as `none`. -/
structure Session where
  firstInput : Option Snapshot
  firstMultiple : Option Snapshot
  deriving DecidableEq

/-- `Math.round`: round half toward positive infinity. -/
def jsRound (q : ℚ) : ℚ := ((⌊q + 1/2⌋ : ℤ) : ℚ)

/-- `Math.min.apply(Math, l)` over a list.  The empty case (which in JS yields
`Infinity`) is unreachable under the ≥ 1 pointer contract and maps to `0`. -/
def jsMin (l : List ℚ) : ℚ :=
  match l with
  | [] => 0
  | a :: t => t.foldl min a

/-- `Math.max.apply(Math, l)` over a list; empty case as in `jsMin`. -/
def jsMax (l : List ℚ) : ℚ :=
  match l with
  | [] => 0
  | a :: t => t.foldl max a

/-- `getCenter`: a single pointer's rounded coordinates, otherwise the rounded
midpoint of the bounding box of all client coordinates. -/
def getCenter (pointers : List RawPointer) : Point :=
  match pointers with
  | [p] => { x := jsRound p.clientX, y := jsRound p.clientY }
  | _ =>
    let x := pointers.map (fun p => p.clientX)
    let y := pointers.map (fun p => p.clientY)
    { x := jsRound ((jsMin x + jsMax x) / 2), y := jsRound ((jsMin y + jsMax y) / 2) }

/-- `getDirection`: 4-way direction classification between two points. -/
def getDirection (p1 p2 : Point) : String :=
  let x := p1.x - p2.x
  let y := p1.y - p2.y
  if x = y then DIRECTION_NONE
  else if |y| ≤ |x| then (if 0 < x then DIRECTION_LEFT else DIRECTION_RIGHT)
  else (if 0 < y then DIRECTION_UP else DIRECTION_DOWN)

/-- `Math.atan2 y x`, defined piecewise from `Real.arctan` as in IEEE `atan2`
(signed zeros excepted, which exact rationals do not carry). -/
noncomputable def atan2 (y x : ℝ) : ℝ :=
  if 0 < x then Real.arctan (y / x)
  else if x < 0 then
    (if 0 ≤ y then Real.arctan (y / x) + Real.pi else Real.arctan (y / x) - Real.pi)
  else if 0 < y then Real.pi / 2
  else if y < 0 then -(Real.pi / 2)
  else 0

/-- `getAngle` over explicit coordinates (the source's property-list dispatch
`props` is modelled by instantiating the coordinates at the call site). -/
noncomputable def getAngleXY (x1 y1 x2 y2 : ℚ) : ℝ :=
  atan2 (((y2 : ℝ) - (y1 : ℝ))) (((x2 : ℝ) - (x1 : ℝ))) * 180 / Real.pi

/-- `getDistance` over explicit coordinates: Euclidean norm of `p2 - p1`. -/
noncomputable def getDistanceXY (x1 y1 x2 y2 : ℚ) : ℝ :=
  Real.sqrt (((x2 : ℝ) - (x1 : ℝ)) * ((x2 : ℝ) - (x1 : ℝ)) +
    ((y2 : ℝ) - (y1 : ℝ)) * ((y2 : ℝ) - (y1 : ℝ)))

/-- `getAngle(p1, p2)` with the default `PROPS_XY` properties. -/
noncomputable def getAngle (p1 p2 : Point) : ℝ :=
  getAngleXY p1.x p1.y p2.x p2.y

/-- `getDistance(p1, p2)` with the default `PROPS_XY` properties. -/
noncomputable def getDistance (p1 p2 : Point) : ℝ :=
  getDistanceXY p1.x p1.y p2.x p2.y

/-- `getAngle(p1, p2, PROPS_CLIENT_XY)`. -/
noncomputable def getAngleClient (p1 p2 : RawPointer) : ℝ :=
  getAngleXY p1.clientX p1.clientY p2.clientX p2.clientY

/-- `getDistance(p1, p2, PROPS_CLIENT_XY)`. -/
noncomputable def getDistanceClient (p1 p2 : RawPointer) : ℝ :=
  getDistanceXY p1.clientX p1.clientY p2.clientX p2.clientY

/-- IEEE division as used by the source: a zero divisor yields a non-finite
number (`Infinity` or `NaN`), modelled as `none`. -/
noncomputable def jsDiv (a b : ℝ) : Option ℝ :=
  if b = 0 then none else some (a / b)

/-- `getRotation(start, end)` (the `end` parameter is renamed `endp`, `end`
being reserved): angle of the end pair minus angle of the start pair, over
client coordinates, comparing slots positionally. -/
noncomputable def getRotation (start endp : List RawPointer) : ℝ :=
  getAngleClient endp[1]! endp[0]! - getAngleClient start[1]! start[0]!

/-- `getScale(start, end)`: distance of the end pair divided by distance of the
start pair, over client coordinates; the division is unguarded. -/
noncomputable def getScale (start endp : List RawPointer) : Option ℝ :=
  jsDiv (getDistanceClient endp[0]! endp[1]!) (getDistanceClient start[0]! start[1]!)

/-- `simpleCloneInputData`: reduce the pointers to rounded client coordinates,
record the source timestamp and the center of the reduced list. -/
def simpleCloneInputData (inputData : RawSample) : Snapshot :=
  let pointers := inputData.pointers.map
    (fun p => { clientX := jsRound p.clientX, clientY := jsRound p.clientY : RawPointer })
  { timeStamp := inputData.srcEvent.timeStamp
    pointers := pointers
    center := getCenter pointers }

/-- The derived fields written onto the sample by `computeInputData`. -/
structure ComputedData where
  timeStamp : ℚ
  center : Point
  angle : ℝ
  distance : ℝ
  direction : String
  velocity : ℚ
  velocityX : ℚ
  velocityY : ℚ
  deltaTime : ℚ
  deltaX : ℚ
  deltaY : ℚ
  scale : Option ℝ
  rotation : ℝ

/-- `computeInputData(session, inputData)`: update the session's baselines,
then derive all geometric fields.  The source mutates `session` and
`inputData` in place; here the updated session and the derived fields are
returned.  `session.firstInput` is set to a fresh snapshot when absent
(`Option.getD` with the fresh snapshot is exactly that), `firstMultiple` is
set when the pointer count exceeds one and it is absent, and cleared when the
pointer count is exactly one. -/
noncomputable def computeInputData (session : Session) (inputData : RawSample) :
    Session × ComputedData :=
  let pointers := inputData.pointers
  let pointersLength := pointers.length
  let firstInput := session.firstInput.getD (simpleCloneInputData inputData)
  let firstMultiple : Option Snapshot :=
    if 1 < pointersLength ∧ session.firstMultiple.isNone then
      some (simpleCloneInputData inputData)
    else if pointersLength = 1 then none
    else session.firstMultiple
  let offsetCenter : Point :=
    match firstMultiple with
    | some m => m.center
    | none => firstInput.center
  let center := getCenter pointers
  let timeStamp := inputData.srcEvent.timeStamp
  ({ firstInput := some firstInput, firstMultiple := firstMultiple },
   { timeStamp := timeStamp
     center := center
     angle := getAngle offsetCenter center
     distance := getDistance offsetCenter center
     direction := getDirection offsetCenter center
     velocity := 1/2
     velocityX := 1/2
     velocityY := 1/2
     deltaTime := timeStamp - firstInput.timeStamp
     deltaX := center.x - offsetCenter.x
     deltaY := center.y - offsetCenter.y
     scale :=
       match firstMultiple with
       | some m => getScale m.pointers pointers
       | none => some 1
     rotation :=
       match firstMultiple with
       | some m => getRotation m.pointers pointers
       | none => 0 })

/-- The sample as delivered to the consumer: lifecycle flags, event kind, and
the derived fields. -/
structure EnrichedSample where
  isFirst : Bool
  isFinal : Bool
  eventType : ℕ
  data : ComputedData

/-- `inputHandler(inst, eventType, inputData)`: classify first/final from the
pointer-count delta, reset the session on a true first, then enrich.  The
instance's mutable `session` field is modelled by threading the session
through. -/
noncomputable def inputHandler (session : Session) (eventType : ℕ) (inputData : RawSample) :
    Session × EnrichedSample :=
  let pointersLen := inputData.pointers.length
  let changedPointersLen := inputData.changedPointers.length
  let isFirst : Bool :=
    decide (eventType = EVENT_START) &&
      decide ((pointersLen : ℤ) - (changedPointersLen : ℤ) = 0)
  let isFinal : Bool :=
    decide (eventType = EVENT_END) &&
      decide ((pointersLen : ℤ) - (changedPointersLen : ℤ) = 0)
  let session1 :=
    if eventType = EVENT_START ∧ isFirst then
      { firstInput := none, firstMultiple := none : Session }
    else session
  let r := computeInputData session1 inputData
  (r.1, { isFirst := isFirst, isFinal := isFinal, eventType := eventType, data := r.2 })

/-- The brand-new empty session (`inst.session = {}` in the source). -/
def emptySession : Session := { firstInput := none, firstMultiple := none }

/-- Fold a sequence of enrichment calls over a session, keeping the session. -/
noncomputable def enrichFold (session : Session) (trace : List RawSample) : Session :=
  trace.foldl (fun s d => (computeInputData s d).1) session

/-- Spec-side predicate, from the spec's words: the gesture has, since its
last sample with pointer count exactly 1, observed a sample with pointer
count greater than 1. -/
def multiSinceLastSingle (trace : List RawSample) : Bool :=
  (trace.reverse.takeWhile (fun d => decide (d.pointers.length ≠ 1))).any
    (fun d => decide (1 < d.pointers.length))

/-- Well-formedness invariant of a session: any stored `firstMultiple`
snapshot carries at least two pointers. -/
def SessionWF (s : Session) : Prop :=
  ∀ m, s.firstMultiple = some m → 2 ≤ m.pointers.length

/-- A concrete pointer at the origin, used by witness theorems. -/
def pA : RawPointer := { clientX := 0, clientY := 0 }

/-- A concrete pointer at `(10, 0)`, used by witness theorems. -/
def pB : RawPointer := { clientX := 10, clientY := 0 }

/-- A concrete one-pointer sample, used by witness theorems. -/
def sampleSingle : RawSample :=
  { pointers := [pA], changedPointers := [pA], srcEvent := { timeStamp := 0 } }

/-- A concrete two-pointer sample, used by witness theorems. -/
def sampleDouble : RawSample :=
  { pointers := [pA, pB], changedPointers := [pB], srcEvent := { timeStamp := 100 } }

/-- The snapshot of `sampleDouble`, used by witness theorems. -/
def snapDouble : Snapshot := simpleCloneInputData sampleDouble

/-- A degenerate snapshot whose two stored pointers coincide, used by the
zero-baseline witness. -/
def snapEqual : Snapshot :=
  { timeStamp := 0, pointers := [pA, pA], center := { x := 0, y := 0 } }

/-- C4: `getDirection p1 p2` is determined by `dx = p1.x - p2.x` and
`dy = p1.y - p2.y`: `none` when `dx = dy` exactly, otherwise left/right by the
sign of `dx` when `|dx| ≥ |dy|`, otherwise up/down by the sign of `dy`; in
particular identical points give `none`, `(0,0)` against `(10,0)` gives
`right`, and `(0,0)` against `(-10,0)` gives `left`. -/
theorem getDirection_spec :
    (∀ p1 p2 : Point,
      getDirection p1 p2 =
        (if p1.x - p2.x = p1.y - p2.y then DIRECTION_NONE
         else if |p1.y - p2.y| ≤ |p1.x - p2.x| then
           (if 0 < p1.x - p2.x then DIRECTION_LEFT else DIRECTION_RIGHT)
         else (if 0 < p1.y - p2.y then DIRECTION_UP else DIRECTION_DOWN))) ∧
    (∀ p : Point, getDirection p p = DIRECTION_NONE) ∧
    getDirection { x := 0, y := 0 } { x := 10, y := 0 } = DIRECTION_RIGHT ∧
    getDirection { x := 0, y := 0 } { x := -10, y := 0 } = DIRECTION_LEFT := by
  refine ⟨fun p1 p2 => rfl, fun p => ?_, ?_, ?_⟩ <;>
    norm_num [getDirection, DIRECTION_RIGHT, DIRECTION_LEFT]

/-- C5: `isFirst` holds exactly on a start event whose active pointer count
equals its changed pointer count, `isFinal` exactly on such an end event, and
a cancel event never yields `isFinal = true`. -/
theorem inputHandler_lifecycle_flags :
    ∀ (s : Session) (et : ℕ) (d : RawSample),
      ((inputHandler s et d).2.isFirst = true ↔
        et = EVENT_START ∧ d.pointers.length = d.changedPointers.length) ∧
      ((inputHandler s et d).2.isFinal = true ↔
        et = EVENT_END ∧ d.pointers.length = d.changedPointers.length) ∧
      (inputHandler s EVENT_CANCEL d).2.isFinal = false := by
  intro s et d
  refine ⟨?_, ?_, ?_⟩ <;>
    simp [inputHandler, sub_eq_zero, EVENT_CANCEL, EVENT_END]

/-- C9: regardless of session state and input sample, the enriched sample's
velocity fields all carry the fixed placeholder value 0.5; no kinematic
computation occurs. -/
theorem velocity_placeholder :
    ∀ (s : Session) (d : RawSample),
      (computeInputData s d).2.velocity = 1/2 ∧
      (computeInputData s d).2.velocityX = 1/2 ∧
      (computeInputData s d).2.velocityY = 1/2 := by
  intro s d
  exact ⟨rfl, rfl, rfl⟩

lemma foldl_min_le_init : ∀ (l : List ℚ) (a : ℚ), l.foldl min a ≤ a := by
  intro l
  induction l with
  | nil => intro a; exact le_refl a
  | cons b t ih => intro a; exact le_trans (ih (min a b)) (min_le_left a b)

lemma foldl_min_le_mem : ∀ (l : List ℚ) (a x : ℚ), x ∈ l → l.foldl min a ≤ x := by
  intro l
  induction l with
  | nil => intro a x hx; cases hx
  | cons b t ih =>
    intro a x hx
    rcases List.mem_cons.mp hx with rfl | hx
    · exact le_trans (foldl_min_le_init t (min a x)) (min_le_right a x)
    · exact ih (min a b) x hx

lemma foldl_min_mem : ∀ (l : List ℚ) (a : ℚ), l.foldl min a = a ∨ l.foldl min a ∈ l := by
  intro l
  induction l with
  | nil => intro a; exact Or.inl rfl
  | cons b t ih =>
    intro a
    rw [List.foldl_cons]
    rcases ih (min a b) with h | h
    · rcases min_choice a b with hab | hab
      · exact Or.inl (h.trans hab)
      · refine Or.inr ?_
        rw [h, hab]
        exact List.mem_cons_self b t
    · exact Or.inr (List.mem_cons_of_mem b h)

lemma jsMin_le {l : List ℚ} {x : ℚ} (hx : x ∈ l) : jsMin l ≤ x := by
  cases l with
  | nil => cases hx
  | cons a t =>
    rcases List.mem_cons.mp hx with rfl | hx
    · exact foldl_min_le_init t x
    · exact foldl_min_le_mem t a x hx

lemma jsMin_mem {l : List ℚ} (h : l ≠ []) : jsMin l ∈ l := by
  cases l with
  | nil => exact absurd rfl h
  | cons a t =>
    show t.foldl min a ∈ a :: t
    rcases foldl_min_mem t a with h1 | h1
    · rw [h1]; exact List.mem_cons_self a t
    · exact List.mem_cons_of_mem a h1

lemma jsMin_perm {l l' : List ℚ} (p : l.Perm l') : jsMin l = jsMin l' := by
  rcases eq_or_ne l [] with rfl | hl
  · rw [List.perm_nil.mp p.symm]
  · have hl' : l' ≠ [] := by
      intro h
      exact hl (List.perm_nil.mp (h ▸ p))
    exact le_antisymm (jsMin_le (p.mem_iff.mpr (jsMin_mem hl')))
      (jsMin_le (p.mem_iff.mp (jsMin_mem hl)))

lemma foldl_max_init_le : ∀ (l : List ℚ) (a : ℚ), a ≤ l.foldl max a := by
  intro l
  induction l with
  | nil => intro a; exact le_refl a
  | cons b t ih => intro a; exact le_trans (le_max_left a b) (ih (max a b))

lemma foldl_max_mem_le : ∀ (l : List ℚ) (a x : ℚ), x ∈ l → x ≤ l.foldl max a := by
  intro l
  induction l with
  | nil => intro a x hx; cases hx
  | cons b t ih =>
    intro a x hx
    rcases List.mem_cons.mp hx with rfl | hx
    · exact le_trans (le_max_right a x) (foldl_max_init_le t (max a x))
    · exact ih (max a b) x hx

lemma foldl_max_mem : ∀ (l : List ℚ) (a : ℚ), l.foldl max a = a ∨ l.foldl max a ∈ l := by
  intro l
  induction l with
  | nil => intro a; exact Or.inl rfl
  | cons b t ih =>
    intro a
    rw [List.foldl_cons]
    rcases ih (max a b) with h | h
    · rcases max_choice a b with hab | hab
      · exact Or.inl (h.trans hab)
      · refine Or.inr ?_
        rw [h, hab]
        exact List.mem_cons_self b t
    · exact Or.inr (List.mem_cons_of_mem b h)

lemma le_jsMax {l : List ℚ} {x : ℚ} (hx : x ∈ l) : x ≤ jsMax l := by
  cases l with
  | nil => cases hx
  | cons a t =>
    rcases List.mem_cons.mp hx with rfl | hx
    · exact foldl_max_init_le t x
    · exact foldl_max_mem_le t a x hx

lemma jsMax_mem {l : List ℚ} (h : l ≠ []) : jsMax l ∈ l := by
  cases l with
  | nil => exact absurd rfl h
  | cons a t =>
    show t.foldl max a ∈ a :: t
    rcases foldl_max_mem t a with h1 | h1
    · rw [h1]; exact List.mem_cons_self a t
    · exact List.mem_cons_of_mem a h1

lemma jsMax_perm {l l' : List ℚ} (p : l.Perm l') : jsMax l = jsMax l' := by
  rcases eq_or_ne l [] with rfl | hl
  · rw [List.perm_nil.mp p.symm]
  · have hl' : l' ≠ [] := by
      intro h
      exact hl (List.perm_nil.mp (h ▸ p))
    exact le_antisymm (le_jsMax (p.mem_iff.mp (jsMax_mem hl)))
      (le_jsMax (p.mem_iff.mpr (jsMax_mem hl')))

/-- C7: for a single pointer `getCenter` returns its rounded client
coordinates directly; for more than one pointer it returns the componentwise
rounded midpoint of the axis-aligned bounding box of the client coordinates,
and the result is invariant under permutation of the pointer list. -/
theorem getCenter_spec :
    (∀ p : RawPointer, getCenter [p] = { x := jsRound p.clientX, y := jsRound p.clientY }) ∧
    (∀ l : List RawPointer, 1 < l.length →
      getCenter l =
        { x := jsRound ((jsMin (l.map (fun p => p.clientX)) +
            jsMax (l.map (fun p => p.clientX))) / 2),
          y := jsRound ((jsMin (l.map (fun p => p.clientY)) +
            jsMax (l.map (fun p => p.clientY))) / 2) }) ∧
    (∀ l l' : List RawPointer, 1 < l.length → l.Perm l' → getCenter l = getCenter l') := by
  have hbig : ∀ l : List RawPointer, 1 < l.length →
      getCenter l =
        { x := jsRound ((jsMin (l.map (fun p => p.clientX)) +
            jsMax (l.map (fun p => p.clientX))) / 2),
          y := jsRound ((jsMin (l.map (fun p => p.clientY)) +
            jsMax (l.map (fun p => p.clientY))) / 2) } := by
    intro l hl
    match l, hl with
    | a :: b :: t, _ => rfl
  refine ⟨fun p => rfl, hbig, ?_⟩
  intro l l' hl hp
  have hl' : 1 < l'.length := hp.length_eq ▸ hl
  rw [hbig l hl, hbig l' hl',
    jsMin_perm (hp.map (fun p => p.clientX)), jsMax_perm (hp.map (fun p => p.clientX)),
    jsMin_perm (hp.map (fun p => p.clientY)), jsMax_perm (hp.map (fun p => p.clientY))]

/-- Witness for `getCenter_spec` at concrete inputs: the bounding-box form of
a concrete two-pointer list, and invariance under swapping that list. -/
theorem getCenter_spec_witness :
    (getCenter [{ clientX := 0, clientY := 0 }, { clientX := 10, clientY := 2 }] =
      { x := jsRound ((jsMin (([{ clientX := 0, clientY := 0 },
            { clientX := 10, clientY := 2 }] : List RawPointer).map (fun p => p.clientX)) +
          jsMax (([{ clientX := 0, clientY := 0 },
            { clientX := 10, clientY := 2 }] : List RawPointer).map (fun p => p.clientX))) / 2),
        y := jsRound ((jsMin (([{ clientX := 0, clientY := 0 },
            { clientX := 10, clientY := 2 }] : List RawPointer).map (fun p => p.clientY)) +
          jsMax (([{ clientX := 0, clientY := 0 },
            { clientX := 10, clientY := 2 }] : List RawPointer).map (fun p => p.clientY))) / 2) }) ∧
    getCenter [{ clientX := 0, clientY := 0 }, { clientX := 10, clientY := 2 }] =
      getCenter [{ clientX := 10, clientY := 2 }, { clientX := 0, clientY := 0 }] :=
  ⟨getCenter_spec.2.1 _ (by norm_num),
   getCenter_spec.2.2 _ _ (by norm_num) (List.Perm.swap _ _ _)⟩

lemma computeInputData_fst (s : Session) (d : RawSample) :
    (computeInputData s d).1 =
      { firstInput := some (s.firstInput.getD (simpleCloneInputData d)),
        firstMultiple :=
          if 1 < d.pointers.length ∧ s.firstMultiple.isNone then
            some (simpleCloneInputData d)
          else if d.pointers.length = 1 then none
          else s.firstMultiple } := rfl

lemma firstMultiple_isSome_step {s : Session} {d : RawSample}
    (hd : 1 ≤ d.pointers.length) :
    ((computeInputData s d).1).firstMultiple.isSome = decide (1 < d.pointers.length) := by
  rw [computeInputData_fst]
  cases hfm : s.firstMultiple with
  | none =>
    by_cases h1 : 1 < d.pointers.length
    · simp [h1]
    · have hone : d.pointers.length = 1 := by omega
      simp [hone]
  | some m =>
    by_cases h1 : 1 < d.pointers.length
    · have hne : ¬ d.pointers.length = 1 := by omega
      simp [h1, hne]
    · have hone : d.pointers.length = 1 := by omega
      simp [hone]

lemma enrichFold_firstMultiple_isSome :
    ∀ (trace : List RawSample) (s : Session),
      (∀ d ∈ trace, 1 ≤ d.pointers.length) →
      (enrichFold s trace).firstMultiple.isSome =
        (match trace.getLast? with
         | none => s.firstMultiple.isSome
         | some d => decide (1 < d.pointers.length)) := by
  intro trace
  induction trace with
  | nil => intro s _; rfl
  | cons d rest ih =>
    intro s h
    have hd : 1 ≤ d.pointers.length := h d (List.mem_cons_self d rest)
    have hrest : ∀ x ∈ rest, 1 ≤ x.pointers.length :=
      fun x hx => h x (List.mem_cons_of_mem d hx)
    have hfold : enrichFold s (d :: rest) = enrichFold ((computeInputData s d).1) rest := rfl
    rw [hfold, ih _ hrest]
    cases rest with
    | nil => simpa using firstMultiple_isSome_step hd
    | cons e r =>
      cases hx : (e :: r).getLast? with
      | none => simp [List.getLast?_eq_none_iff] at hx
      | some x => simp [hx]

lemma multiSinceLastSingle_getLast :
    ∀ trace : List RawSample,
      (∀ d ∈ trace, 1 ≤ d.pointers.length) →
      multiSinceLastSingle trace =
        (match trace.getLast? with
         | none => false
         | some d => decide (1 < d.pointers.length)) := by
  intro trace h
  rw [← List.head?_reverse]
  cases hrev : trace.reverse with
  | nil => simp [multiSinceLastSingle, hrev]
  | cons a t =>
    have ha : a ∈ trace := by
      have : a ∈ trace.reverse := by rw [hrev]; exact List.mem_cons_self a t
      exact List.mem_reverse.mp this
    have ha1 : 1 ≤ a.pointers.length := h a ha
    by_cases hone : a.pointers.length = 1
    · simp [multiSinceLastSingle, hrev, List.takeWhile_cons, hone]
    · have hgt : 1 < a.pointers.length := by omega
      simp [multiSinceLastSingle, hrev, List.takeWhile_cons, hone, hgt]

/-- C1: `firstMultiple` lifecycle: a multi-pointer call sets it to a snapshot
of that sample when absent, a single-pointer call clears it, after such a dip
a later multi-pointer call captures a snapshot of the later sample (not the
earlier baseline), and over any gesture trace whose samples each carry at
least one pointer, `firstMultiple` is present exactly when a multi-pointer
sample has been observed since the last single-pointer sample. -/
theorem firstMultiple_lifecycle :
    (∀ (s : Session) (d : RawSample), s.firstMultiple = none → 1 < d.pointers.length →
      ((computeInputData s d).1).firstMultiple = some (simpleCloneInputData d)) ∧
    (∀ (s : Session) (d : RawSample), d.pointers.length = 1 →
      ((computeInputData s d).1).firstMultiple = none) ∧
    (∀ (s : Session) (d1 d2 : RawSample), d1.pointers.length = 1 → 1 < d2.pointers.length →
      ((computeInputData (computeInputData s d1).1 d2).1).firstMultiple =
        some (simpleCloneInputData d2)) ∧
    (∀ trace : List RawSample, (∀ d ∈ trace, 1 ≤ d.pointers.length) →
      ((enrichFold emptySession trace).firstMultiple.isSome = true ↔
        multiSinceLastSingle trace = true)) := by
  have hset : ∀ (s : Session) (d : RawSample), s.firstMultiple = none →
      1 < d.pointers.length →
      ((computeInputData s d).1).firstMultiple = some (simpleCloneInputData d) := by
    intro s d hnone h1
    rw [computeInputData_fst]
    simp [h1, hnone]
  have hclear : ∀ (s : Session) (d : RawSample), d.pointers.length = 1 →
      ((computeInputData s d).1).firstMultiple = none := by
    intro s d hone
    rw [computeInputData_fst]
    simp [hone]
  refine ⟨hset, hclear, ?_, ?_⟩
  · intro s d1 d2 h1 h2
    exact hset _ _ (hclear s d1 h1) h2
  · intro trace hwf
    rw [enrichFold_firstMultiple_isSome trace emptySession hwf,
      multiSinceLastSingle_getLast trace hwf]
    cases hx : trace.getLast? with
    | none => simp [emptySession]
    | some x => simp

/-- Witness for `firstMultiple_lifecycle`: a concrete gesture that dips to one
pointer and returns to two captures the later sample's snapshot, and the
trace-level characterization holds on that concrete trace. -/
theorem firstMultiple_lifecycle_witness :
    (((computeInputData (computeInputData emptySession sampleSingle).1
        sampleDouble).1).firstMultiple = some (simpleCloneInputData sampleDouble)) ∧
    ((enrichFold emptySession [sampleSingle, sampleDouble]).firstMultiple.isSome = true ↔
      multiSinceLastSingle [sampleSingle, sampleDouble] = true) :=
  ⟨firstMultiple_lifecycle.2.2.1 emptySession sampleSingle sampleDouble rfl (by decide),
   firstMultiple_lifecycle.2.2.2 [sampleSingle, sampleDouble] (by decide)⟩

/-- C2: after the baseline-update step the offset center is
`firstMultiple.center` when present and `firstInput.center` otherwise; angle,
distance and direction come from the pair (offset center, current center);
the deltas are the componentwise difference of the current center and the
offset center; and `deltaTime` is the sample's timestamp minus `firstInput`'s
timestamp, even when `firstMultiple` is the offset baseline. -/
theorem offset_baseline_fields :
    ∀ (s : Session) (d : RawSample) (fi : Snapshot),
      ((computeInputData s d).1).firstInput = some fi →
      (let oc :=
        match ((computeInputData s d).1).firstMultiple with
        | some m => m.center
        | none => fi.center
       let c := getCenter d.pointers
       (computeInputData s d).2.center = c ∧
       (computeInputData s d).2.angle = getAngle oc c ∧
       (computeInputData s d).2.distance = getDistance oc c ∧
       (computeInputData s d).2.direction = getDirection oc c ∧
       (computeInputData s d).2.deltaX = c.x - oc.x ∧
       (computeInputData s d).2.deltaY = c.y - oc.y ∧
       (computeInputData s d).2.deltaTime =
         (computeInputData s d).2.timeStamp - fi.timeStamp) := by
  intro s d fi h
  rw [computeInputData_fst] at h
  have hfi : s.firstInput.getD (simpleCloneInputData d) = fi := by
    simpa using h
  subst hfi
  exact ⟨rfl, rfl, rfl, rfl, rfl, rfl, rfl⟩

/-- Witness for `offset_baseline_fields` at a concrete session and sample. -/
theorem offset_baseline_fields_witness :
    (let oc :=
      match ((computeInputData emptySession sampleDouble).1).firstMultiple with
      | some m => m.center
      | none => snapDouble.center
     let c := getCenter sampleDouble.pointers
     (computeInputData emptySession sampleDouble).2.center = c ∧
     (computeInputData emptySession sampleDouble).2.angle = getAngle oc c ∧
     (computeInputData emptySession sampleDouble).2.distance = getDistance oc c ∧
     (computeInputData emptySession sampleDouble).2.direction = getDirection oc c ∧
     (computeInputData emptySession sampleDouble).2.deltaX = c.x - oc.x ∧
     (computeInputData emptySession sampleDouble).2.deltaY = c.y - oc.y ∧
     (computeInputData emptySession sampleDouble).2.deltaTime =
       (computeInputData emptySession sampleDouble).2.timeStamp - snapDouble.timeStamp) :=
  offset_baseline_fields emptySession sampleDouble snapDouble rfl

/-- C3: when `firstMultiple` is absent after the baseline-update step the
sample's scale is the finite value 1 and its rotation is 0; when present,
scale is the current pair's client distance divided by the stored pair's, and
rotation is the current pair's angle minus the stored pair's, over the first
two positional entries of each list. -/
theorem scale_rotation_fields :
    ∀ (s : Session) (d : RawSample),
      (((computeInputData s d).1).firstMultiple = none →
        (computeInputData s d).2.scale = some 1 ∧
        (computeInputData s d).2.rotation = 0) ∧
      (∀ m : Snapshot, ((computeInputData s d).1).firstMultiple = some m →
        (computeInputData s d).2.scale =
          jsDiv (getDistanceClient d.pointers[0]! d.pointers[1]!)
            (getDistanceClient m.pointers[0]! m.pointers[1]!) ∧
        (computeInputData s d).2.rotation =
          getAngleClient d.pointers[1]! d.pointers[0]! -
            getAngleClient m.pointers[1]! m.pointers[0]!) := by
  intro s d
  have hscale : (computeInputData s d).2.scale =
      (match ((computeInputData s d).1).firstMultiple with
       | some m => getScale m.pointers d.pointers
       | none => some 1) := rfl
  have hrot : (computeInputData s d).2.rotation =
      (match ((computeInputData s d).1).firstMultiple with
       | some m => getRotation m.pointers d.pointers
       | none => 0) := rfl
  constructor
  · intro hnone
    rw [hscale, hrot, hnone]
    exact ⟨rfl, rfl⟩
  · intro m hm
    rw [hscale, hrot, hm]
    exact ⟨rfl, rfl⟩

/-- Witness for `scale_rotation_fields`: identity values on a concrete
single-pointer call, and the two-pointer formulas on a concrete session that
already holds a multi-touch baseline. -/
theorem scale_rotation_fields_witness :
    ((computeInputData emptySession sampleSingle).2.scale = some 1 ∧
     (computeInputData emptySession sampleSingle).2.rotation = 0) ∧
    ((computeInputData ⟨some snapDouble, some snapDouble⟩ sampleDouble).2.scale =
        jsDiv (getDistanceClient sampleDouble.pointers[0]! sampleDouble.pointers[1]!)
          (getDistanceClient snapDouble.pointers[0]! snapDouble.pointers[1]!) ∧
     (computeInputData ⟨some snapDouble, some snapDouble⟩ sampleDouble).2.rotation =
        getAngleClient sampleDouble.pointers[1]! sampleDouble.pointers[0]! -
          getAngleClient snapDouble.pointers[1]! snapDouble.pointers[0]!) :=
  ⟨(scale_rotation_fields emptySession sampleSingle).1 rfl,
   (scale_rotation_fields ⟨some snapDouble, some snapDouble⟩ sampleDouble).2 snapDouble rfl⟩

/-- C8: a start pair with coinciding client coordinates makes the unguarded
division in `getScale` produce the non-finite value (modelled `none`), and
that value propagates unchanged to the enriched sample's scale field. -/
theorem zero_baseline_scale :
    (∀ (a b : RawPointer) (rest endp : List RawPointer),
      a.clientX = b.clientX → a.clientY = b.clientY →
      getScale (a :: b :: rest) endp = none) ∧
    (∀ (s : Session) (d : RawSample) (m : Snapshot) (a b : RawPointer)
      (rest : List RawPointer),
      ((computeInputData s d).1).firstMultiple = some m →
      m.pointers = a :: b :: rest →
      a.clientX = b.clientX → a.clientY = b.clientY →
      (computeInputData s d).2.scale = none) := by
  have h1 : ∀ (a b : RawPointer) (rest endp : List RawPointer),
      a.clientX = b.clientX → a.clientY = b.clientY →
      getScale (a :: b :: rest) endp = none := by
    intro a b rest endp hx hy
    have hz : getDistanceClient (a :: b :: rest)[0]! (a :: b :: rest)[1]! = 0 := by
      have e0 : (a :: b :: rest)[0]! = a := by simp
      have e1 : (a :: b :: rest)[1]! = b := by simp
      rw [e0, e1]
      simp [getDistanceClient, getDistanceXY, hx, hy]
    show jsDiv (getDistanceClient endp[0]! endp[1]!)
      (getDistanceClient (a :: b :: rest)[0]! (a :: b :: rest)[1]!) = none
    rw [hz]
    simp [jsDiv]
  refine ⟨h1, ?_⟩
  intro s d m a b rest hm hp hx hy
  have hscale : (computeInputData s d).2.scale =
      (match ((computeInputData s d).1).firstMultiple with
       | some mm => getScale mm.pointers d.pointers
       | none => some 1) := rfl
  rw [hscale, hm]
  show getScale m.pointers d.pointers = none
  rw [hp]
  exact h1 a b rest d.pointers hx hy

/-- Witness for `zero_baseline_scale`: a coinciding concrete start pair yields
`none`, both directly and through the enrichment engine. -/
theorem zero_baseline_scale_witness :
    getScale [pA, pA] sampleDouble.pointers = none ∧
    (computeInputData ⟨some snapEqual, some snapEqual⟩ sampleDouble).2.scale = none :=
  ⟨zero_baseline_scale.1 pA pA [] sampleDouble.pointers rfl rfl,
   zero_baseline_scale.2 ⟨some snapEqual, some snapEqual⟩ sampleDouble snapEqual
     pA pA [] rfl rfl rfl rfl⟩

lemma computeInputData_fst_firstInput (s : Session) (d : RawSample) :
    ((computeInputData s d).1).firstInput =
      some (s.firstInput.getD (simpleCloneInputData d)) := rfl

lemma computeInputData_fst_firstMultiple (s : Session) (d : RawSample) :
    ((computeInputData s d).1).firstMultiple =
      (if 1 < d.pointers.length ∧ s.firstMultiple.isNone then
        some (simpleCloneInputData d)
      else if d.pointers.length = 1 then none
      else s.firstMultiple) := rfl

lemma simpleCloneInputData_length (d : RawSample) :
    (simpleCloneInputData d).pointers.length = d.pointers.length := by
  simp [simpleCloneInputData]

lemma inputHandler_isFirst (s : Session) (et : ℕ) (d : RawSample) :
    (inputHandler s et d).2.isFirst =
      (decide (et = EVENT_START) &&
        decide ((d.pointers.length : ℤ) - (d.changedPointers.length : ℤ) = 0)) := rfl

lemma inputHandler_isFinal (s : Session) (et : ℕ) (d : RawSample) :
    (inputHandler s et d).2.isFinal =
      (decide (et = EVENT_END) &&
        decide ((d.pointers.length : ℤ) - (d.changedPointers.length : ℤ) = 0)) := rfl

/-- C6: the session is replaced by a brand-new empty session exactly on a
sample classified `isFirst`: on such a sample the handler's result is
independent of the prior session and enrichment starts from the empty
session; on any other sample the session evolves only by enrichment;
`firstInput` is set on the first enrichment call of a gesture and is never
reassigned by a later call; and an `isFinal` sample does not itself clear
the session or its baselines. -/
theorem session_reset_boundary :
    (∀ (s s' : Session) (et : ℕ) (d : RawSample),
      (inputHandler s et d).2.isFirst = true →
      inputHandler s et d = inputHandler s' et d) ∧
    (∀ (s : Session) (et : ℕ) (d : RawSample),
      (inputHandler s et d).2.isFirst = true →
      (inputHandler s et d).1 = (computeInputData emptySession d).1) ∧
    (∀ (s : Session) (et : ℕ) (d : RawSample),
      (inputHandler s et d).2.isFirst = false →
      (inputHandler s et d).1 = (computeInputData s d).1) ∧
    (∀ d : RawSample,
      ((computeInputData emptySession d).1).firstInput =
        some (simpleCloneInputData d)) ∧
    (∀ (s : Session) (d : RawSample) (fi : Snapshot), s.firstInput = some fi →
      ((computeInputData s d).1).firstInput = some fi) ∧
    (∀ (s : Session) (et : ℕ) (d : RawSample),
      (inputHandler s et d).2.isFinal = true →
      (inputHandler s et d).1 = (computeInputData s d).1) := by
  have hfirst : ∀ (s : Session) (et : ℕ) (d : RawSample),
      (inputHandler s et d).2.isFirst = true →
      et = EVENT_START ∧
        (decide (et = EVENT_START) &&
          decide ((d.pointers.length : ℤ) - (d.changedPointers.length : ℤ) = 0)) = true := by
    intro s et d h
    rw [inputHandler_isFirst] at h
    refine ⟨?_, h⟩
    have h2 := h
    simp only [Bool.and_eq_true, decide_eq_true_eq] at h2
    exact h2.1
  have hnotfirst : ∀ (s : Session) (et : ℕ) (d : RawSample),
      (inputHandler s et d).2.isFirst = false →
      ¬(et = EVENT_START ∧
        (decide (et = EVENT_START) &&
          decide ((d.pointers.length : ℤ) - (d.changedPointers.length : ℤ) = 0)) = true) := by
    intro s et d h hc
    rw [inputHandler_isFirst] at h
    rw [h] at hc
    exact Bool.false_ne_true hc.2
  refine ⟨?_, ?_, ?_, ?_, ?_, ?_⟩
  · intro s s' et d h
    have hc := hfirst s et d h
    simp only [inputHandler]
    rw [if_pos hc, if_pos hc]
  · intro s et d h
    have hc := hfirst s et d h
    simp only [inputHandler]
    rw [if_pos hc]
    rfl
  · intro s et d h
    have hc := hnotfirst s et d h
    simp only [inputHandler]
    rw [if_neg hc]
  · intro d
    exact computeInputData_fst_firstInput emptySession d
  · intro s d fi h
    rw [computeInputData_fst_firstInput, h]
    rfl
  · intro s et d h
    rw [inputHandler_isFinal] at h
    have hend : et = EVENT_END := by
      simp only [Bool.and_eq_true, decide_eq_true_eq] at h
      exact h.1
    have hne : ¬(et = EVENT_START ∧
        (decide (et = EVENT_START) &&
          decide ((d.pointers.length : ℤ) - (d.changedPointers.length : ℤ) = 0)) = true) := by
      intro hc
      rw [hend] at hc
      exact absurd hc.1 (by decide)
    simp only [inputHandler]
    rw [if_neg hne]

/-- Witness for `session_reset_boundary`: on a concrete start sample the
prior session is irrelevant; a concrete preexisting `firstInput` survives an
enrichment call; and a concrete final sample leaves the session to plain
enrichment. -/
theorem session_reset_boundary_witness :
    inputHandler ⟨some snapDouble, some snapDouble⟩ EVENT_START sampleSingle =
      inputHandler emptySession EVENT_START sampleSingle ∧
    ((computeInputData ⟨some snapDouble, some snapDouble⟩ sampleSingle).1).firstInput =
      some snapDouble ∧
    (inputHandler ⟨some snapDouble, some snapDouble⟩ EVENT_END sampleSingle).1 =
      (computeInputData ⟨some snapDouble, some snapDouble⟩ sampleSingle).1 :=
  ⟨session_reset_boundary.1 ⟨some snapDouble, some snapDouble⟩ emptySession
      EVENT_START sampleSingle rfl,
   session_reset_boundary.2.2.2.2.1 ⟨some snapDouble, some snapDouble⟩
      sampleSingle snapDouble rfl,
   session_reset_boundary.2.2.2.2.2 ⟨some snapDouble, some snapDouble⟩
      EVENT_END sampleSingle rfl⟩

/-- C10: under the ≥ 1-pointer input contract, with the session invariant
that any stored multi-touch baseline carries at least two pointers (true of
the empty session and preserved by every enrichment call), whenever
`firstMultiple` is present after the baseline-update step — exactly when
`getScale` and `getRotation` are invoked — both the stored baseline pointer
list and the current pointer list have at least two entries, so the
positional accesses to slots 0 and 1 are in bounds. -/
theorem twoPointer_slots_inbounds :
    SessionWF emptySession ∧
    (∀ (s : Session) (d : RawSample), 1 ≤ d.pointers.length → SessionWF s →
      SessionWF ((computeInputData s d).1)) ∧
    (∀ (s : Session) (d : RawSample), 1 ≤ d.pointers.length → SessionWF s →
      ∀ m, ((computeInputData s d).1).firstMultiple = some m →
        2 ≤ m.pointers.length ∧ 2 ≤ d.pointers.length) ∧
    (∀ trace : List RawSample, (∀ d ∈ trace, 1 ≤ d.pointers.length) →
      SessionWF (enrichFold emptySession trace)) := by
  have hempty : SessionWF emptySession := by
    intro m hm
    simp [emptySession] at hm
  have hstep : ∀ (s : Session) (d : RawSample), 1 ≤ d.pointers.length → SessionWF s →
      ∀ m, ((computeInputData s d).1).firstMultiple = some m →
        2 ≤ m.pointers.length ∧ 2 ≤ d.pointers.length := by
    intro s d hd hwf m hm
    rw [computeInputData_fst_firstMultiple] at hm
    by_cases h1 : 1 < d.pointers.length ∧ s.firstMultiple.isNone
    · rw [if_pos h1] at hm
      have h11 := h1.1
      have hmm : simpleCloneInputData d = m := Option.some.inj hm
      constructor
      · rw [← hmm, simpleCloneInputData_length]
        omega
      · omega
    · rw [if_neg h1] at hm
      by_cases h2 : d.pointers.length = 1
      · rw [if_pos h2] at hm
        simp at hm
      · rw [if_neg h2] at hm
        have hlen : 2 ≤ d.pointers.length := by omega
        exact ⟨hwf m hm, hlen⟩
  have hpres : ∀ (s : Session) (d : RawSample), 1 ≤ d.pointers.length → SessionWF s →
      SessionWF ((computeInputData s d).1) := by
    intro s d hd hwf m hm
    exact (hstep s d hd hwf m hm).1
  refine ⟨hempty, hpres, hstep, ?_⟩
  suffices hgen : ∀ (trace : List RawSample) (s : Session),
      (∀ d ∈ trace, 1 ≤ d.pointers.length) → SessionWF s →
      SessionWF (enrichFold s trace) by
    intro trace h
    exact hgen trace emptySession h hempty
  intro trace
  induction trace with
  | nil => intro s _ hs; exact hs
  | cons d rest ih =>
    intro s h hs
    have hd : 1 ≤ d.pointers.length := h d (List.mem_cons_self d rest)
    exact ih ((computeInputData s d).1)
      (fun x hx => h x (List.mem_cons_of_mem d hx)) (hpres s d hd hs)

/-- Witness for `twoPointer_slots_inbounds`: a concrete two-pointer call on
the empty session stores a two-pointer baseline, in bounds for the slot
accesses. -/
theorem twoPointer_slots_inbounds_witness :
    2 ≤ snapDouble.pointers.length ∧ 2 ≤ sampleDouble.pointers.length :=
  twoPointer_slots_inbounds.2.2.1 emptySession sampleDouble (by decide)
    twoPointer_slots_inbounds.1 snapDouble rfl
